import Mathlib

/-!
Shallow embedding of the verification-request lifecycle module
(`src/server/concepts/verifying.ts`) and the verification routes of the
synchronization layer (`src/server/routes.ts`).

The generic record store (`DocCollection` from `src/server/framework/doc`,
declared an external collaborator by the design document) is modelled from
the design document, section 6: `create(record) → id`,
`readOne(filter) → record | absent`, a single-document `partialUpdate` by
filter, and a single-document `delete` by filter.  Records carry a unique,
never-reused id assigned at creation.  Point reads and single-document
updates/deletes act on the first record matching the filter, in insertion
order.  Timestamps (`createdAt`/`updatedAt`) play no role in any property
below and are omitted.

Asynchronous thrown errors become the `Except` monad; every state-mutating
operation returns the updated collection state explicitly.
-/

namespace Verifying

/-- The `status` field of a `VerificationRequestDoc`:
one of `"pending" | "approved" | "rejected"`. -/
inductive VStatus where
  | pending
  | approved
  | rejected
deriving DecidableEq, Repr

/-- `VerificationRequestDoc`: a record of the verification-request
collection (`username`, `credentials`, `status`, plus the store-assigned
unique id from `BaseDoc`). -/
structure VDoc where
  id : Nat
  username : String
  credentials : String
  status : VStatus
deriving DecidableEq, Repr

/-- Modelled from the spec: the state of the one record collection owned
by the Verifying module (`this.verificationRequests`), with the store's
fresh-id supply made explicit. -/
structure VState where
  docs : List VDoc
  nextId : Nat
deriving DecidableEq, Repr

/-- The empty collection. -/
def emptyState : VState := ⟨[], 0⟩

/-- The errors thrown by the module and the session collaborator:
`BadValuesError` (spec taxonomy `InvalidInput`), `NotAllowedError`
(spec taxonomy `Conflict`), `NotFoundError`, and the session resolver's
`Unauthenticated` failure. -/
inductive VError where
  | badValues (msg : String)
  | notAllowed (msg : String)
  | notFound (msg : String)
  | unauthenticated
deriving DecidableEq, Repr

/-- Modelled from the spec: `readOne({ username })` — the point read of the
record store, returning the first record whose `username` field matches,
or absent. -/
def readOne (username : String) (st : VState) : Option VDoc :=
  st.docs.find? (fun d => d.username == username)

/-- Modelled from the spec: `createOne` of the record store — appends a new
record with a fresh, never-reused id and returns the id. -/
def createOne (username credentials : String) (st : VState) : Nat × VState :=
  (st.nextId,
   ⟨st.docs ++ [⟨st.nextId, username, credentials, VStatus.pending⟩], st.nextId + 1⟩)

/-- Replace the first element satisfying `p` by its image under `f`. -/
def updateFirst (p : VDoc → Bool) (f : VDoc → VDoc) : List VDoc → List VDoc
  | [] => []
  | d :: ds => if p d then f d :: ds else d :: updateFirst p f ds

/-- Modelled from the spec: `partialUpdateOne({ username }, { status })` —
the store's single-document update by filter, patching the `status` field
of the first matching record. -/
def patchOne (username : String) (newStatus : VStatus) (st : VState) : VState :=
  ⟨updateFirst (fun d => d.username == username) (fun d => { d with status := newStatus })
     st.docs,
   st.nextId⟩

/-- Modelled from the spec: `deleteOne({ username })` — the store's
single-document delete by filter, removing the first matching record
(a no-op when none matches). -/
def deleteOne (username : String) (st : VState) : VState :=
  ⟨st.docs.eraseP (fun d => d.username == username), st.nextId⟩

/-- `assertValidRequest`: throws `BadValuesError` when `username` or
`credentials` is empty (JS falsiness of the empty string), and
`NotAllowedError` when any record for `username` already exists. -/
def assertValidRequest (username credentials : String) (st : VState) : Option VError :=
  if username == "" || credentials == "" then
    some (VError.badValues "User ID and credentials must be non-empty!")
  else if (readOne username st).isSome then
    some (VError.notAllowed ("User with ID " ++ username ++ " already has a pending request!"))
  else
    none

/-- The payload returned by `createVerificationRequest`: a message and the
record re-read from the store (`readOne({ username })` after the insert). -/
structure CreateResult where
  msg : String
  request : Option VDoc
deriving DecidableEq, Repr

/-- The `{ msg }` payload returned by approve/reject/delete. -/
structure MsgResult where
  msg : String
deriving DecidableEq, Repr

/-- `createVerificationRequest(username, credentials)`: validates via
`assertValidRequest`, inserts a record with `status: "pending"`, and
returns the success message together with `readOne({ username })`. -/
def createVerificationRequest (username credentials : String) (st : VState) :
    Except VError (CreateResult × VState) :=
  match assertValidRequest username credentials st with
  | some e => Except.error e
  | none =>
    let st' := (createOne username credentials st).2
    Except.ok (⟨"Verification request created successfully!", readOne username st'⟩, st')

/-- `getRequestByUser(username)`: pure read; throws `NotFoundError` when no
record for `username` exists. -/
def getRequestByUser (username : String) (st : VState) : Except VError VDoc :=
  match readOne username st with
  | none => Except.error (VError.notFound "Verification request not found!")
  | some r => Except.ok r

/-- `approveRequest(username)`: throws `NotFoundError` when no record
exists, otherwise sets `status: "approved"` on the matching record
(without inspecting the prior status). -/
def approveRequest (username : String) (st : VState) :
    Except VError (MsgResult × VState) :=
  match readOne username st with
  | none => Except.error (VError.notFound "Verification request not found.")
  | some _ =>
    Except.ok (⟨"Verification request approved successfully!"⟩,
      patchOne username VStatus.approved st)

/-- The reason suffix of the reject message:
`${reason ? "Reason: " + reason : ""}` — the empty string is falsy in JS,
so an empty supplied reason produces no suffix, like an absent one. -/
def rejectReasonText : Option String → String
  | some r => if r == "" then "" else "Reason: " ++ r
  | none => ""

/-- `rejectRequest(username, reason?)`: throws `NotFoundError` when no
record exists, otherwise sets `status: "rejected"` and returns
`` `Verification request rejected. ${reason ? "Reason: " + reason : ""}` ``. -/
def rejectRequest (username : String) (reason : Option String) (st : VState) :
    Except VError (MsgResult × VState) :=
  match readOne username st with
  | none => Except.error (VError.notFound "Verification request not found.")
  | some _ =>
    Except.ok (⟨"Verification request rejected. " ++ rejectReasonText reason⟩,
      patchOne username VStatus.rejected st)

/-- `deleteRequest(username)`: unconditionally deletes (a no-op when no
record matches) and returns a success message; it has no failure path. -/
def deleteRequest (username : String) (st : VState) :
    Except VError (MsgResult × VState) :=
  Except.ok (⟨"Verification request deleted!"⟩, deleteOne username st)

/-- One module operation, for sequencing. -/
inductive VOp where
  | create (username credentials : String)
  | approve (username : String)
  | reject (username : String) (reason : Option String)
  | delete (username : String)
deriving DecidableEq, Repr

/-- Execute one module operation sequentially: a thrown error leaves the
collection unchanged. -/
def stepOp (op : VOp) (st : VState) : VState :=
  match op with
  | VOp.create u c =>
    match createVerificationRequest u c st with
    | Except.ok (_, st') => st'
    | Except.error _ => st
  | VOp.approve u =>
    match approveRequest u st with
    | Except.ok (_, st') => st'
    | Except.error _ => st
  | VOp.reject u r =>
    match rejectRequest u r st with
    | Except.ok (_, st') => st'
    | Except.error _ => st
  | VOp.delete u =>
    match deleteRequest u st with
    | Except.ok (_, st') => st'
    | Except.error _ => st

/-- Execute a sequence of module operations one at a time. -/
def runOps (ops : List VOp) (st : VState) : VState :=
  ops.foldl (fun s op => stepOp op s) st

/-!
The synchronization/routing layer (`src/server/routes.ts`, verification
routes).  External collaborators, modelled from the spec, section 6:
`Sessioning.getUser` resolves an opaque session handle to the caller's
identity or throws `Unauthenticated`; `Authing.isAdmin` is the
administrator predicate, a boolean query over identities.
-/

/-- Modelled from the spec: the external identity/session collaborators a
route consults — the session→identity resolver and the administrator
predicate. -/
structure Env where
  sessionUser : Nat → Option Nat
  isAdmin : Nat → Bool

/-- `Sessioning.getUser(session)`: throws when the session holds no user. -/
def getSessionUser (env : Env) (session : Nat) : Except VError Nat :=
  match env.sessionUser session with
  | none => Except.error VError.unauthenticated
  | some u => Except.ok u

/-- The `{ status }` payload of the verification-status route. -/
structure StatusPayload where
  status : String
deriving DecidableEq, Repr

/-- The string the store serializes a status as. -/
def statusText : VStatus → String
  | VStatus.pending => "pending"
  | VStatus.approved => "approved"
  | VStatus.rejected => "rejected"

/-- The outward payload of the approve/reject routes: either the module's
`{ msg }` result or the routing layer's structured `{ error }` result. -/
inductive VPayload where
  | msgPayload (msg : String)
  | errPayload (error : String)
deriving DecidableEq, Repr

/-- Route `GET /verification/status`: calls `Verifying.getRequestByUser`
(whose thrown `NotFoundError` propagates) and returns
`{ status: request.status }`.  The source's `if (!request)` branch
returning `{ status: "No verification request found." }` is unreachable:
`getRequestByUser` never resolves to a null record — it throws instead. -/
def getVerificationStatus (env : Env) (session : Nat) (username : String) (st : VState) :
    Except VError StatusPayload :=
  match getRequestByUser username st with
  | Except.error e => Except.error e
  | Except.ok request => Except.ok ⟨statusText request.status⟩

/-- Route `POST /verification/approve/:requester`: reads the request
(`NotFoundError` propagates), resolves the caller from the session, asks
the administrator predicate, returns the structured
`{ error: "You do not have permission to approve requests." }` payload for
a non-administrator, and only otherwise calls `Verifying.approveRequest`. -/
def approveVerificationRequest (env : Env) (session : Nat) (requester : String)
    (st : VState) : Except VError (VPayload × VState) :=
  match getRequestByUser requester st with
  | Except.error e => Except.error e
  | Except.ok _ =>
    match getSessionUser env session with
    | Except.error e => Except.error e
    | Except.ok user =>
      if env.isAdmin user then
        match approveRequest requester st with
        | Except.error e => Except.error e
        | Except.ok (r, st') => Except.ok (VPayload.msgPayload r.msg, st')
      else
        Except.ok (VPayload.errPayload "You do not have permission to approve requests.", st)

/-- Route `POST /verification/reject/:requester`: like approve, but calls
`Verifying.rejectRequest(requester)` with the `reason` argument omitted. -/
def rejectVerificationRequest (env : Env) (session : Nat) (requester : String)
    (st : VState) : Except VError (VPayload × VState) :=
  match getRequestByUser requester st with
  | Except.error e => Except.error e
  | Except.ok _ =>
    match getSessionUser env session with
    | Except.error e => Except.error e
    | Except.ok user =>
      if env.isAdmin user then
        match rejectRequest requester none st with
        | Except.error e => Except.error e
        | Except.ok (r, st') => Except.ok (VPayload.msgPayload r.msg, st')
      else
        Except.ok (VPayload.errPayload "You do not have permission to reject requests.", st)

/-- Number of records for subject `u`. -/
def usersCount (u : String) (st : VState) : Nat :=
  st.docs.countP (fun d => d.username == u)

/-- Number of records for subject `u` with `status = pending`. -/
def pendingCount (u : String) (st : VState) : Nat :=
  st.docs.countP (fun d => d.username == u && d.status == VStatus.pending)

/-! Helper lemmas about the store primitives. -/

theorem updateFirst_countP (p q : VDoc → Bool) (f : VDoc → VDoc)
    (hq : ∀ x, q (f x) = q x) :
    ∀ l : List VDoc, (updateFirst p f l).countP q = l.countP q := by
  intro l
  induction l with
  | nil => rfl
  | cons d ds ih =>
    by_cases hd : p d
    · simp [updateFirst, hd, List.countP_cons, hq]
    · simp [updateFirst, hd, List.countP_cons, ih]

theorem updateFirst_mem (p : VDoc → Bool) (f : VDoc → VDoc) (d : VDoc) :
    ∀ l : List VDoc, d ∈ updateFirst p f l → d ∈ l ∨ ∃ x ∈ l, d = f x := by
  intro l
  induction l with
  | nil => intro h; cases h
  | cons a as ih =>
    by_cases ha : p a
    · simp only [updateFirst, ha, if_pos]
      intro h
      rcases List.mem_cons.mp h with h | h
      · exact Or.inr ⟨a, List.mem_cons_self a as, h⟩
      · exact Or.inl (List.mem_cons_of_mem a h)
    · simp only [updateFirst, ha, if_neg, Bool.false_eq_true, not_false_iff]
      intro h
      rcases List.mem_cons.mp h with h | h
      · exact Or.inl (h ▸ List.mem_cons_self a as)
      · rcases ih h with h | ⟨x, hx, hdx⟩
        · exact Or.inl (List.mem_cons_of_mem a h)
        · exact Or.inr ⟨x, List.mem_cons_of_mem a hx, hdx⟩

theorem updateFirst_find? (p : VDoc → Bool) (f : VDoc → VDoc)
    (hp : ∀ x, p (f x) = p x) :
    ∀ (l : List VDoc) (d : VDoc), l.find? p = some d →
      (updateFirst p f l).find? p = some (f d) := by
  intro l
  induction l with
  | nil => intro d h; cases h
  | cons a as ih =>
    intro d h
    by_cases ha : p a
    · rw [List.find?_cons_of_pos _ ha] at h
      cases h
      simp only [updateFirst, ha, if_pos]
      exact List.find?_cons_of_pos _ (by rw [hp]; exact ha)
    · rw [List.find?_cons_of_neg _ (by simpa using ha)] at h
      simp only [updateFirst, ha, if_neg, Bool.false_eq_true, not_false_iff]
      rw [List.find?_cons_of_neg _ (by simpa using ha)]
      exact ih d h

theorem updateFirst_idem (p : VDoc → Bool) (f : VDoc → VDoc)
    (hp : ∀ x, p (f x) = p x) (hf : ∀ x, f (f x) = f x) :
    ∀ l : List VDoc, updateFirst p f (updateFirst p f l) = updateFirst p f l := by
  intro l
  induction l with
  | nil => rfl
  | cons a as ih =>
    by_cases ha : p a
    · simp [updateFirst, ha, hp, hf]
    · simp [updateFirst, ha, ih]

theorem find?_append_none (p : VDoc → Bool) :
    ∀ l₁ l₂ : List VDoc, l₁.find? p = none → (l₁ ++ l₂).find? p = l₂.find? p := by
  intro l₁
  induction l₁ with
  | nil => intro l₂ _; rfl
  | cons a as ih =>
    intro l₂ h
    by_cases ha : p a
    · rw [List.find?_cons_of_pos _ ha] at h; cases h
    · rw [List.find?_cons_of_neg _ (by simpa using ha)] at h
      rw [List.cons_append, List.find?_cons_of_neg _ (by simpa using ha)]
      exact ih l₂ h

/-- `assertValidRequest` passes exactly when both inputs are non-empty and
no record for the username exists. -/
theorem assertValidRequest_eq_none (u c : String) (st : VState) :
    assertValidRequest u c st = none ↔ (u ≠ "" ∧ c ≠ "" ∧ readOne u st = none) := by
  unfold assertValidRequest
  by_cases h1 : (u == "" || c == "") = true
  · simp only [h1, if_pos]
    simp only [Bool.or_eq_true, beq_iff_eq] at h1
    simp only [reduceCtorEq, false_iff]
    rintro ⟨hu, hc, -⟩
    rcases h1 with h1 | h1
    · exact hu h1
    · exact hc h1
  · simp only [h1, if_neg, Bool.false_eq_true, not_false_iff]
    simp only [Bool.or_eq_true, beq_iff_eq, not_or] at h1
    by_cases h2 : (readOne u st).isSome
    · simp only [h2, if_pos, reduceCtorEq, false_iff]
      rintro ⟨-, -, hnone⟩
      rw [hnone] at h2
      cases h2
    · simp only [h2, if_neg, Bool.false_eq_true, not_false_iff, true_iff]
      exact ⟨h1.1, h1.2, Option.not_isSome_iff_eq_none.mp (by simpa using h2)⟩

/-- Successful `createVerificationRequest` appends the fresh pending record
and can only happen when no record for the username existed. -/
theorem createVerificationRequest_ok (u c : String) (st : VState) (r : CreateResult)
    (st' : VState) (h : createVerificationRequest u c st = Except.ok (r, st')) :
    u ≠ "" ∧ c ≠ "" ∧ readOne u st = none ∧
      st' = ⟨st.docs ++ [⟨st.nextId, u, c, VStatus.pending⟩], st.nextId + 1⟩ := by
  unfold createVerificationRequest at h
  cases hA : assertValidRequest u c st with
  | some e => rw [hA] at h; cases h
  | none =>
    rw [hA] at h
    rcases (assertValidRequest_eq_none u c st).mp hA with ⟨hu, hc, hnone⟩
    refine ⟨hu, hc, hnone, ?_⟩
    cases h
    rfl

/-- Successful `approveRequest` requires an existing record and patches the
first matching record to `approved`. -/
theorem approveRequest_ok (u : String) (st : VState) (r : MsgResult) (st' : VState)
    (h : approveRequest u st = Except.ok (r, st')) :
    (∃ d, readOne u st = some d) ∧
      r = ⟨"Verification request approved successfully!"⟩ ∧
      st' = patchOne u VStatus.approved st := by
  unfold approveRequest at h
  cases hread : readOne u st with
  | none => rw [hread] at h; cases h
  | some d =>
    rw [hread] at h
    cases h
    exact ⟨⟨d, rfl⟩, rfl, rfl⟩

/-- Successful `rejectRequest` requires an existing record and patches the
first matching record to `rejected`. -/
theorem rejectRequest_ok (u : String) (reason : Option String) (st : VState)
    (r : MsgResult) (st' : VState)
    (h : rejectRequest u reason st = Except.ok (r, st')) :
    (∃ d, readOne u st = some d) ∧
      r = ⟨"Verification request rejected. " ++ rejectReasonText reason⟩ ∧
      st' = patchOne u VStatus.rejected st := by
  unfold rejectRequest at h
  cases hread : readOne u st with
  | none => rw [hread] at h; cases h
  | some d =>
    rw [hread] at h
    cases h
    exact ⟨⟨d, rfl⟩, rfl, rfl⟩

/-- One sequential module operation preserves "at most one record per
subject". -/
theorem usersCount_stepOp_le (st : VState) (hinv : ∀ v, usersCount v st ≤ 1)
    (op : VOp) (u : String) : usersCount u (stepOp op st) ≤ 1 := by
  cases op with
  | create u0 c =>
    cases hr : createVerificationRequest u0 c st with
    | error e => simpa [stepOp, hr] using hinv u
    | ok p =>
      obtain ⟨r, st'⟩ := p
      rcases createVerificationRequest_ok u0 c st r st' hr with ⟨-, -, hnone, hst'⟩
      have hzero : st.docs.countP (fun d => d.username == u0) = 0 := by
        rw [List.countP_eq_zero]
        intro d hd
        have := List.find?_eq_none.mp hnone d hd
        simpa using this
      simp only [stepOp, hr]
      rw [hst']
      unfold usersCount
      rw [List.countP_append]
      by_cases hu : u0 = u
      · subst hu
        rw [hzero]
        simp
      · have h1 : (List.countP (fun d => d.username == u)
            ([⟨st.nextId, u0, c, VStatus.pending⟩] : List VDoc)) = 0 := by
          simp [List.countP_cons, hu]
        rw [h1]
        simpa using hinv u
  | approve u0 =>
    cases hr : approveRequest u0 st with
    | error e => simpa [stepOp, hr] using hinv u
    | ok p =>
      obtain ⟨r, st'⟩ := p
      rcases approveRequest_ok u0 st r st' hr with ⟨-, -, hst'⟩
      simp only [stepOp, hr]
      rw [hst']
      unfold usersCount patchOne
      rw [updateFirst_countP (fun d => d.username == u0) (fun d => d.username == u)
        (fun d => { d with status := VStatus.approved }) (fun x => rfl) st.docs]
      exact hinv u
  | reject u0 reason =>
    cases hr : rejectRequest u0 reason st with
    | error e => simpa [stepOp, hr] using hinv u
    | ok p =>
      obtain ⟨r, st'⟩ := p
      rcases rejectRequest_ok u0 reason st r st' hr with ⟨-, -, hst'⟩
      simp only [stepOp, hr]
      rw [hst']
      unfold usersCount patchOne
      rw [updateFirst_countP (fun d => d.username == u0) (fun d => d.username == u)
        (fun d => { d with status := VStatus.rejected }) (fun x => rfl) st.docs]
      exact hinv u
  | delete u0 =>
    simp only [stepOp, deleteRequest]
    unfold usersCount deleteOne
    exact le_trans ((List.eraseP_sublist st.docs).countP_le _) (hinv u)

/-- A sequence of sequential module operations preserves "at most one
record per subject". -/
theorem usersCount_runOps_le :
    ∀ (ops : List VOp) (st : VState), (∀ v, usersCount v st ≤ 1) →
      ∀ u, usersCount u (runOps ops st) ≤ 1 := by
  intro ops
  induction ops with
  | nil => intro st hinv u; exact hinv u
  | cons op rest ih =>
    intro st hinv u
    exact ih (stepOp op st) (fun v => usersCount_stepOp_le st hinv op v) u

/-- Pending records for a subject are among its records. -/
theorem pendingCount_le_usersCount (u : String) (st : VState) :
    pendingCount u st ≤ usersCount u st := by
  unfold pendingCount usersCount
  refine List.countP_mono_left ?_
  intro d _ hd
  exact (Bool.and_eq_true _ _ ▸ hd).1

/-! Concrete fixtures used by claim theorems and witnesses. -/

/-- An environment whose session resolver always yields user `0` and whose
administrator predicate always answers `true`. -/
def adminEnv : Env := ⟨fun _ => some 0, fun _ => true⟩

/-- An environment whose session resolver always yields user `1` and whose
administrator predicate always answers `false`. -/
def nonAdminEnv : Env := ⟨fun _ => some 1, fun _ => false⟩

/-- A collection holding exactly one pending record, for subject `bob`. -/
def bobPendingState : VState := ⟨[⟨0, "bob", "cred", VStatus.pending⟩], 1⟩

/-- The collection reached from empty by `create "alice"` then
`approve "alice"`: one approved record, no pending one. -/
def aliceApprovedState : VState :=
  runOps [VOp.create "alice" "doc1", VOp.approve "alice"] emptyState

/-! Claim theorems. -/

/-- Claim C1: starting from the empty collection, after any sequence of
createRequest / approve / reject / delete module operations executed one at
a time, at most one record with `status = pending` exists for each distinct
subject. -/
theorem c1_sequential_one_pending_invariant (ops : List VOp) (u : String) :
    pendingCount u (runOps ops emptyState) ≤ 1 :=
  le_trans (pendingCount_le_usersCount u (runOps ops emptyState))
    (usersCount_runOps_le ops emptyState
      (fun v => by simp [usersCount, emptyState]) u)

/-- Claim C2, counterexample: the record for `alice` (id 0) has
`status = approved` after `create; approve`, and one further `reject`
operation moves that same record out of `approved` into `rejected` — an
`approved → rejected` transition, which the claim says never happens. -/
theorem c2_counterexample_terminal_state_moves :
    readOne "alice" aliceApprovedState = some ⟨0, "alice", "doc1", VStatus.approved⟩ ∧
    readOne "alice" (stepOp (VOp.reject "alice" none) aliceApprovedState) =
      some ⟨0, "alice", "doc1", VStatus.rejected⟩ :=
  ⟨rfl, rfl⟩

/-- Claim C2 (amended), both conjuncts: (1) every record is created with
`status = pending` — any record present after one operation under an id no
prior record had is the fresh pending record inserted by a `create`
operation (ids are never reused, so approve/reject/delete never account
for a record with a new id); and (2) no operation ever sets a record's
status (back) to `pending`: any pending record present after one
operation was already present (pending) before it, or the operation was a
`create` and the record is the newly inserted pending one.  (Transitions
between the two terminal states remain possible, as the counterexample
shows.) -/
theorem c2_amended_created_pending_no_reentry (op : VOp) (st : VState) (d : VDoc)
    (hmem : d ∈ (stepOp op st).docs) :
    ((∀ e ∈ st.docs, e.id ≠ d.id) →
      ∃ u c, op = VOp.create u c ∧ d = ⟨st.nextId, u, c, VStatus.pending⟩) ∧
    (d.status = VStatus.pending →
      d ∈ st.docs ∨ ∃ u c, op = VOp.create u c ∧ d = ⟨st.nextId, u, c, VStatus.pending⟩) := by
  cases op with
  | create u0 c =>
    cases hr : createVerificationRequest u0 c st with
    | error e =>
      rw [stepOp, hr] at hmem
      exact ⟨fun hid => absurd rfl (hid d hmem), fun _ => Or.inl hmem⟩
    | ok p =>
      obtain ⟨r, st'⟩ := p
      rcases createVerificationRequest_ok u0 c st r st' hr with ⟨-, -, -, hst'⟩
      rw [stepOp, hr, hst'] at hmem
      rcases List.mem_append.mp hmem with h | h
      · exact ⟨fun hid => absurd rfl (hid d h), fun _ => Or.inl h⟩
      · rcases List.mem_singleton.mp h with h
        exact ⟨fun _ => ⟨u0, c, rfl, h⟩, fun _ => Or.inr ⟨u0, c, rfl, h⟩⟩
  | approve u0 =>
    cases hr : approveRequest u0 st with
    | error e =>
      rw [stepOp, hr] at hmem
      exact ⟨fun hid => absurd rfl (hid d hmem), fun _ => Or.inl hmem⟩
    | ok p =>
      obtain ⟨r, st'⟩ := p
      rcases approveRequest_ok u0 st r st' hr with ⟨-, -, hst'⟩
      rw [stepOp, hr, hst'] at hmem
      rcases updateFirst_mem _ _ d st.docs hmem with h | ⟨x, hx, hdx⟩
      · exact ⟨fun hid => absurd rfl (hid d h), fun _ => Or.inl h⟩
      · refine ⟨fun hid => absurd ?_ (hid x hx), fun hpend => ?_⟩
        · rw [hdx]
        · rw [hdx] at hpend
          cases hpend
  | reject u0 reason =>
    cases hr : rejectRequest u0 reason st with
    | error e =>
      rw [stepOp, hr] at hmem
      exact ⟨fun hid => absurd rfl (hid d hmem), fun _ => Or.inl hmem⟩
    | ok p =>
      obtain ⟨r, st'⟩ := p
      rcases rejectRequest_ok u0 reason st r st' hr with ⟨-, -, hst'⟩
      rw [stepOp, hr, hst'] at hmem
      rcases updateFirst_mem _ _ d st.docs hmem with h | ⟨x, hx, hdx⟩
      · exact ⟨fun hid => absurd rfl (hid d h), fun _ => Or.inl h⟩
      · refine ⟨fun hid => absurd ?_ (hid x hx), fun hpend => ?_⟩
        · rw [hdx]
        · rw [hdx] at hpend
          cases hpend
  | delete u0 =>
    rw [stepOp, deleteRequest] at hmem
    have h : d ∈ st.docs := (List.eraseP_sublist st.docs).subset hmem
    exact ⟨fun hid => absurd rfl (hid d h), fun _ => Or.inl h⟩

/-- Witness for the amended claim C2 at a concrete input: creating `"a"`
on the empty collection yields a record under a fresh id, and the theorem
identifies it as the `create` operation's new pending record. -/
theorem c2_amended_witness :
    (⟨0, "a", "c", VStatus.pending⟩ : VDoc) ∈ (stepOp (VOp.create "a" "c") emptyState).docs ∧
    (∃ u c, VOp.create "a" "c" = VOp.create u c ∧
      (⟨0, "a", "c", VStatus.pending⟩ : VDoc) =
        ⟨emptyState.nextId, u, c, VStatus.pending⟩) :=
  ⟨by decide,
   (c2_amended_created_pending_no_reentry (VOp.create "a" "c") emptyState
     ⟨0, "a", "c", VStatus.pending⟩ (by decide)).1 (by decide)⟩

/-- Claim C3: `getVerificationStatus` on a subject with no record.  The
claim (and the spec) say the route returns the non-error sentinel
`{ status: "No verification request found." }`; in the code
`Verifying.getRequestByUser` throws `NotFoundError` before the route's
null-check can run, so the `NotFoundError` propagates and the sentinel
branch is unreachable. -/
theorem c3_absence_propagates_notfound :
    getVerificationStatus adminEnv 0 "ghost" emptyState =
      Except.error (VError.notFound "Verification request not found!") ∧
    getVerificationStatus adminEnv 0 "bob" bobPendingState =
      Except.ok ⟨"pending"⟩ :=
  ⟨rfl, rfl⟩

/-- Claim C4: whenever the target of an approve or reject route has a
pending record and the caller's session resolves to a non-administrator,
the route returns the structured permission-denied payload without
throwing, and the collection state is returned unchanged — in particular
the target's record still has `status = pending`. -/
theorem c4_nonadmin_approve_reject_gate (env : Env) (session : Nat)
    (requester : String) (st : VState) (u : Nat) (d : VDoc)
    (hs : env.sessionUser session = some u) (hna : env.isAdmin u = false)
    (hd : readOne requester st = some d) (hpend : d.status = VStatus.pending) :
    approveVerificationRequest env session requester st =
      Except.ok (VPayload.errPayload "You do not have permission to approve requests.", st) ∧
    rejectVerificationRequest env session requester st =
      Except.ok (VPayload.errPayload "You do not have permission to reject requests.", st) ∧
    readOne requester st = some d ∧ d.status = VStatus.pending := by
  refine ⟨?_, ?_, hd, hpend⟩ <;>
    simp [approveVerificationRequest, rejectVerificationRequest, getRequestByUser,
      getSessionUser, hd, hs, hna]

/-- Witness for claim C4 at a concrete input: a non-administrator caller
against `bob`'s pending record. -/
theorem c4_nonadmin_gate_witness :
    approveVerificationRequest nonAdminEnv 0 "bob" bobPendingState =
      Except.ok (VPayload.errPayload "You do not have permission to approve requests.",
        bobPendingState) ∧
    rejectVerificationRequest nonAdminEnv 0 "bob" bobPendingState =
      Except.ok (VPayload.errPayload "You do not have permission to reject requests.",
        bobPendingState) ∧
    readOne "bob" bobPendingState = some ⟨0, "bob", "cred", VStatus.pending⟩ ∧
    (⟨0, "bob", "cred", VStatus.pending⟩ : VDoc).status = VStatus.pending :=
  c4_nonadmin_approve_reject_gate nonAdminEnv 0 "bob" bobPendingState 1
    ⟨0, "bob", "cred", VStatus.pending⟩ rfl rfl rfl rfl

/-- Claim C5: for non-empty subject and credentials,
`createVerificationRequest` fails with the Conflict error
(`NotAllowedError`) exactly when some record for that subject already
exists in the collection, whatever that record's status. -/
theorem c5_conflict_iff_any_existing_record (s c : String) (st : VState)
    (hs : s ≠ "") (hc : c ≠ "") :
    (∃ m, createVerificationRequest s c st = Except.error (VError.notAllowed m)) ↔
      ∃ d ∈ st.docs, d.username = s := by
  have hmem : (readOne s st).isSome = true ↔ ∃ d ∈ st.docs, d.username = s := by
    unfold readOne
    rw [List.find?_isSome]
    simp [beq_iff_eq]
  by_cases hex : (readOne s st).isSome
  · constructor
    · intro _
      exact hmem.mp hex
    · intro _
      refine ⟨"User with ID " ++ s ++ " already has a pending request!", ?_⟩
      simp [createVerificationRequest, assertValidRequest, beq_iff_eq, hs, hc, hex]
  · constructor
    · rintro ⟨m, hm⟩
      exfalso
      simp [createVerificationRequest, assertValidRequest, beq_iff_eq, hs, hc, hex] at hm
    · intro h
      exact absurd (hmem.mpr h) hex

/-- Witness for claim C5 at concrete inputs: on the collection holding
`bob`'s pending record, creating for `"bob"` conflicts exactly because a
record for `"bob"` exists. -/
theorem c5_conflict_witness :
    ("bob" : String) ≠ "" ∧
    ((∃ m, createVerificationRequest "bob" "newcred" bobPendingState =
        Except.error (VError.notAllowed m)) ↔
      ∃ d ∈ bobPendingState.docs, d.username = "bob") :=
  ⟨by decide, c5_conflict_iff_any_existing_record "bob" "newcred" bobPendingState
    (by decide) (by decide)⟩

/-- Claim C6, counterexample: after `create "alice"; approve "alice"` the
subject `alice` has no pending record, yet `createVerificationRequest`
for `alice` with non-empty inputs fails with the Conflict error instead of
succeeding — the existence check blocks on the approved record too. -/
theorem c6_counterexample_create_blocked_without_pending :
    pendingCount "alice" aliceApprovedState = 0 ∧
    createVerificationRequest "alice" "doc2" aliceApprovedState =
      Except.error (VError.notAllowed "User with ID alice already has a pending request!") :=
  ⟨rfl, rfl⟩

/-- Claim C6 (amended): for every subject `s` with no existing record of
any status (not merely no pending one), `createVerificationRequest s c`
with non-empty `s` and `c` succeeds, returns the success message together
with the newly created record, and a subsequent `getRequestByUser s`
returns that record, whose status is `pending`. -/
theorem c6_amended_create_success (s c : String) (st : VState)
    (hs : s ≠ "") (hc : c ≠ "") (hnone : readOne s st = none) :
    createVerificationRequest s c st =
      Except.ok (⟨"Verification request created successfully!",
          some ⟨st.nextId, s, c, VStatus.pending⟩⟩,
        ⟨st.docs ++ [⟨st.nextId, s, c, VStatus.pending⟩], st.nextId + 1⟩) ∧
    getRequestByUser s ⟨st.docs ++ [⟨st.nextId, s, c, VStatus.pending⟩], st.nextId + 1⟩ =
      Except.ok ⟨st.nextId, s, c, VStatus.pending⟩ ∧
    (⟨st.nextId, s, c, VStatus.pending⟩ : VDoc).status = VStatus.pending := by
  have hassert : assertValidRequest s c st = none :=
    (assertValidRequest_eq_none s c st).mpr ⟨hs, hc, hnone⟩
  have hfind : readOne s ⟨st.docs ++ [⟨st.nextId, s, c, VStatus.pending⟩], st.nextId + 1⟩ =
      some ⟨st.nextId, s, c, VStatus.pending⟩ := by
    unfold readOne
    rw [find?_append_none _ _ _ hnone]
    exact List.find?_cons_of_pos _ (by simp)
  refine ⟨?_, ?_, rfl⟩
  · simp only [createVerificationRequest, hassert, createOne, hfind]
  · unfold getRequestByUser
    rw [hfind]

/-- Witness for the amended claim C6 at a concrete input: creating for
`"carol"` on the empty collection. -/
theorem c6_amended_witness :
    createVerificationRequest "carol" "cred1" emptyState =
      Except.ok (⟨"Verification request created successfully!",
          some ⟨0, "carol", "cred1", VStatus.pending⟩⟩,
        ⟨[⟨0, "carol", "cred1", VStatus.pending⟩], 1⟩) ∧
    getRequestByUser "carol" ⟨[⟨0, "carol", "cred1", VStatus.pending⟩], 1⟩ =
      Except.ok ⟨0, "carol", "cred1", VStatus.pending⟩ :=
  ⟨((c6_amended_create_success "carol" "cred1" emptyState (by decide) (by decide) rfl).1),
   ((c6_amended_create_success "carol" "cred1" emptyState (by decide) (by decide) rfl).2.1)⟩

/-- The first matching record after `patchOne` is the previously found
record with its status replaced. -/
theorem readOne_patchOne (s : String) (newStatus : VStatus) (st : VState) (d : VDoc)
    (hd : readOne s st = some d) :
    readOne s (patchOne s newStatus st) = some { d with status := newStatus } := by
  unfold readOne patchOne
  exact updateFirst_find? (fun d => d.username == s)
    (fun d => { d with status := newStatus }) (fun x => rfl) st.docs d hd

/-- Patching the same status twice is the same as patching it once. -/
theorem patchOne_idem (s : String) (newStatus : VStatus) (st : VState) :
    patchOne s newStatus (patchOne s newStatus st) = patchOne s newStatus st := by
  simp only [patchOne]
  rw [updateFirst_idem (fun d => d.username == s)
    (fun d => { d with status := newStatus }) (fun x => rfl) (fun x => rfl) st.docs]

/-- Claim C7: for every subject with an existing record of any status,
`approveRequest` succeeds with the success message, a subsequent
`getRequestByUser` yields the record with `status = approved`, and a
second `approveRequest` also succeeds with the same message and leaves the
collection state unchanged. -/
theorem c7_approve_postcondition_idempotent (s : String) (st : VState) (d : VDoc)
    (hd : readOne s st = some d) :
    approveRequest s st =
      Except.ok (⟨"Verification request approved successfully!"⟩,
        patchOne s VStatus.approved st) ∧
    getRequestByUser s (patchOne s VStatus.approved st) =
      Except.ok { d with status := VStatus.approved } ∧
    approveRequest s (patchOne s VStatus.approved st) =
      Except.ok (⟨"Verification request approved successfully!"⟩,
        patchOne s VStatus.approved st) := by
  have hfind : readOne s (patchOne s VStatus.approved st) =
      some { d with status := VStatus.approved } := readOne_patchOne s _ st d hd
  refine ⟨?_, ?_, ?_⟩
  · unfold approveRequest
    rw [hd]
  · unfold getRequestByUser
    rw [hfind]
  · unfold approveRequest
    rw [hfind, patchOne_idem]

/-- Witness for claim C7 at a concrete input: approving `bob`'s pending
record, twice. -/
theorem c7_approve_witness :
    approveRequest "bob" bobPendingState =
      Except.ok (⟨"Verification request approved successfully!"⟩,
        patchOne "bob" VStatus.approved bobPendingState) ∧
    getRequestByUser "bob" (patchOne "bob" VStatus.approved bobPendingState) =
      Except.ok ⟨0, "bob", "cred", VStatus.approved⟩ ∧
    approveRequest "bob" (patchOne "bob" VStatus.approved bobPendingState) =
      Except.ok (⟨"Verification request approved successfully!"⟩,
        patchOne "bob" VStatus.approved bobPendingState) :=
  c7_approve_postcondition_idempotent "bob" bobPendingState
    ⟨0, "bob", "cred", VStatus.pending⟩ rfl

/-- Claim C8: for every subject with an existing record,
`rejectRequest` succeeds, a subsequent `getRequestByUser` yields
`status = rejected`, and the returned message contains the supplied reason
text verbatim, or no reason text at all when the reason is absent. -/
theorem c8_reject_message_format (s : String) (reason : Option String) (st : VState)
    (d : VDoc) (hd : readOne s st = some d) :
    rejectRequest s reason st =
      Except.ok (⟨"Verification request rejected. " ++ rejectReasonText reason⟩,
        patchOne s VStatus.rejected st) ∧
    getRequestByUser s (patchOne s VStatus.rejected st) =
      Except.ok { d with status := VStatus.rejected } ∧
    (∀ r, reason = some r →
      ∃ a b, "Verification request rejected. " ++ rejectReasonText reason = a ++ r ++ b) ∧
    (reason = none →
      "Verification request rejected. " ++ rejectReasonText reason =
        "Verification request rejected. ") := by
  refine ⟨?_, ?_, ?_, ?_⟩
  · unfold rejectRequest
    rw [hd]
  · unfold getRequestByUser
    rw [readOne_patchOne s _ st d hd]
  · intro r hr
    subst hr
    by_cases hre : r = ""
    · subst hre
      refine ⟨"Verification request rejected. " ++ rejectReasonText (some ""), "", ?_⟩
      rw [String.append_empty, String.append_empty]
    · refine ⟨"Verification request rejected. " ++ "Reason: ", "", ?_⟩
      simp only [rejectReasonText]
      rw [if_neg (show ¬((r == "") = true) by simpa using hre)]
      rw [String.append_empty, String.append_assoc]
  · intro h
    subst h
    simp only [rejectReasonText]
    rw [String.append_empty]

/-- Witness for claim C8 at concrete inputs: rejecting `bob`'s record with
reason `"bad doc"`. -/
theorem c8_reject_witness :
    rejectRequest "bob" (some "bad doc") bobPendingState =
      Except.ok (⟨"Verification request rejected. " ++ rejectReasonText (some "bad doc")⟩,
        patchOne "bob" VStatus.rejected bobPendingState) ∧
    (∃ a b, "Verification request rejected. " ++ rejectReasonText (some "bad doc") =
      a ++ "bad doc" ++ b) :=
  ⟨(c8_reject_message_format "bob" (some "bad doc") bobPendingState
      ⟨0, "bob", "cred", VStatus.pending⟩ rfl).1,
   (c8_reject_message_format "bob" (some "bad doc") bobPendingState
      ⟨0, "bob", "cred", VStatus.pending⟩ rfl).2.2.1 "bad doc" rfl⟩

/-- Claim C9: `deleteRequest` always succeeds with the success message,
even when no matching record exists (a no-op on the collection), while
`getRequestByUser`, `approveRequest` and `rejectRequest` each fail with
`NotFoundError` whenever no record exists for the subject. -/
theorem c9_delete_total_reads_fail_on_absence (u : String) (r : Option String)
    (st : VState) :
    deleteRequest u st =
      Except.ok (⟨"Verification request deleted!"⟩, deleteOne u st) ∧
    (readOne u st = none →
      deleteOne u st = st ∧
      getRequestByUser u st =
        Except.error (VError.notFound "Verification request not found!") ∧
      approveRequest u st =
        Except.error (VError.notFound "Verification request not found.") ∧
      rejectRequest u r st =
        Except.error (VError.notFound "Verification request not found.")) := by
  refine ⟨rfl, fun h => ⟨?_, ?_, ?_, ?_⟩⟩
  · unfold deleteOne
    have : st.docs.eraseP (fun d => d.username == u) = st.docs := by
      apply List.eraseP_of_forall_not
      intro a ha
      simpa using List.find?_eq_none.mp h a ha
    rw [this]
  · unfold getRequestByUser
    rw [h]
  · unfold approveRequest
    rw [h]
  · unfold rejectRequest
    rw [h]

/-- Witness for claim C9 at a concrete input: the unknown subject `ghost`
on the empty collection. -/
theorem c9_delete_read_witness :
    deleteRequest "ghost" emptyState =
      Except.ok (⟨"Verification request deleted!"⟩, deleteOne "ghost" emptyState) ∧
    getRequestByUser "ghost" emptyState =
      Except.error (VError.notFound "Verification request not found!") :=
  ⟨(c9_delete_total_reads_fail_on_absence "ghost" none emptyState).1,
   ((c9_delete_total_reads_fail_on_absence "ghost" none emptyState).2 rfl).2.1⟩

/-- Claim C10: the reject route calls the module's `rejectRequest` with
the reason omitted, so every non-error payload it produces carries exactly
the message `"Verification request rejected. "`, with no reason text,
regardless of anything the caller supplied. -/
theorem c10_route_reject_message_fixed (env : Env) (session : Nat)
    (requester : String) (st : VState) (m : String) (st' : VState)
    (h : rejectVerificationRequest env session requester st =
      Except.ok (VPayload.msgPayload m, st')) :
    m = "Verification request rejected. " := by
  unfold rejectVerificationRequest at h
  cases hg : getRequestByUser requester st with
  | error e => rw [hg] at h; cases h
  | ok d0 =>
    rw [hg] at h
    cases hu : getSessionUser env session with
    | error e => rw [hu] at h; cases h
    | ok user =>
      rw [hu] at h
      dsimp only at h
      by_cases hadm : env.isAdmin user
      · rw [if_pos hadm] at h
        cases hread : readOne requester st with
        | none =>
          unfold getRequestByUser at hg
          rw [hread] at hg
          cases hg
        | some d =>
          unfold rejectRequest at h
          rw [hread] at h
          cases h
          rw [show rejectReasonText none = "" from rfl, String.append_empty]
      · rw [if_neg hadm] at h
        cases h

/-- Witness for claim C10 at a concrete input: an administrator rejecting
`bob`'s pending request through the route. -/
theorem c10_route_reject_witness :
    rejectVerificationRequest adminEnv 0 "bob" bobPendingState =
      Except.ok (VPayload.msgPayload "Verification request rejected. ",
        patchOne "bob" VStatus.rejected bobPendingState) ∧
    "Verification request rejected. " = "Verification request rejected. " :=
  ⟨rfl, c10_route_reject_message_fixed adminEnv 0 "bob" bobPendingState
    "Verification request rejected. " (patchOne "bob" VStatus.rejected bobPendingState) rfl⟩

end Verifying
